import Mathlib

/-!
Shallow embedding of the job-tracking / notification client of the
`ai-content-creation` repository (Next.js client under
`src/sloppy/client`), covering:

* the `Script` data model and `ScriptState` enum (`src/lib/api.ts`);
* the WebSocket hook used by the studio page (`src/hooks/WebSocket.ts`):
  `joinTaskRoom`, `leaveTaskRoom`, the `connect`-event handler, and the
  room-membership ref `activeTasksRef`;
* the studio page (`src/app/page.tsx`): `trackTask`,
  `joinActiveTaskRooms`, `fetchScripts`, `handleRefresh`,
  `handleTaskUpdate`, `handleScriptDelete`, `handleSubmit`;
* the modal (`src/components/ScriptModal.tsx`): `getNextActions`;
* the cost page (`src/app/cost-management/page.tsx`): cost totals and
  the cumulative cost series.

React state updates are sequentialized: each handler is a pure function
from the component state (plus an environment giving the API responses)
to the next state together with the list of socket messages emitted.
JavaScript numbers are modelled as exact rationals, JS `Map` as an
association list with in-place value replacement, JS `Set` as a
duplicate-free list ordered by insertion.
-/

namespace Sloppy

/-- Lifecycle states, from `ScriptState` in `src/lib/api.ts`
(GENERATING = 1 .. UPLOADED = 6). -/
inductive ScriptState where
  | GENERATING
  | GENERATED
  | PRODUCING
  | PRODUCED
  | UPLOADING
  | UPLOADED
deriving DecidableEq, Repr

/-- The `Script` record from `src/lib/api.ts`. Optional fields are
`Option`; numeric costs are exact rationals; `updated_at` is modelled as
the millisecond timestamp that `new Date(s).getTime()` yields (absent
field gives `none`, which the cost page maps to 0). -/
structure Script where
  id : String
  user_prompt : String
  script : Option String
  state : ScriptState
  script_cost : Option ℚ
  video_cost : Option ℚ
  tiktok_url : Option String
  audio_file : Option String
  video_file : Option String
  updated_at : Option ℕ
  active_task_id : Option String
deriving DecidableEq, Repr

/-- The transient ("-ing") states, exactly the list
`[ScriptState.GENERATING, ScriptState.PRODUCING, ScriptState.UPLOADING]`
tested with `.includes(script.state)` in `joinActiveTaskRooms` and
`fetchScripts` (`src/app/page.tsx`). -/
def isTransient : ScriptState → Bool
  | .GENERATING => true
  | .PRODUCING => true
  | .UPLOADING => true
  | _ => false

/-- JS truthiness of an optional string (`undefined` and `""` are
falsy). -/
def strTruthy : Option String → Bool
  | none => false
  | some s => s ≠ ""

/-- The task id the page considers usable for a script: the code guards
with `script.active_task_id` (JS truthiness), so an absent or empty id
yields nothing. -/
def activeTaskIdOf (s : Script) : Option String :=
  match s.active_task_id with
  | some t => if t = "" then none else some t
  | none => none

/-- The task ids of the scripts in `l` that are in a transient state and
carry a (truthy) `active_task_id` — the set of channels
`joinActiveTaskRooms` subscribes to. -/
def transientTaskIds (l : List Script) : List String :=
  l.filterMap (fun s => if isTransient s.state then activeTaskIdOf s else none)

/-! ### WebSocket hook (`src/hooks/WebSocket.ts`)

`activeTasksRef` is the hook's record of currently joined rooms; it is
the only state the socket layer keeps. Emitted socket messages are
collected in a trace. -/

/-- A socket message emitted by the client:
`socket.emit("join_task_room", {task_id})` or
`socket.emit("leave_task_room", {task_id})`. -/
inductive Msg where
  | joinRoom (taskId : String)
  | leaveRoom (taskId : String)
deriving DecidableEq, Repr

/-- State owned by the `useWebSocket` hook: the connection flag and
`activeTasksRef.current` (a JS `Set`, modelled as a duplicate-free list
in insertion order). -/
structure HookState where
  connected : Bool
  roomTasks : List String
deriving DecidableEq, Repr

/-- `joinTaskRoom` from `src/hooks/WebSocket.ts` (lines 157-182): bails
out if the socket is not connected, no-ops if the task is already in
`activeTasksRef`, otherwise emits `join_task_room` and records the
task. -/
def joinTaskRoom (hs : HookState) (taskId : String) : HookState × List Msg :=
  if hs.connected = false then (hs, [])
  else if taskId ∈ hs.roomTasks then (hs, [])
  else ({ hs with roomTasks := hs.roomTasks ++ [taskId] }, [Msg.joinRoom taskId])

/-- `leaveTaskRoom` from `src/hooks/WebSocket.ts` (lines 184-202): bails
out (without touching `activeTasksRef`) if the socket is not connected,
otherwise emits `leave_task_room` and removes the task from the ref. -/
def leaveTaskRoom (hs : HookState) (taskId : String) : HookState × List Msg :=
  if hs.connected = false then (hs, [])
  else ({ hs with roomTasks := hs.roomTasks.filter (fun t => t ≠ taskId) },
        [Msg.leaveRoom taskId])

/-- The `socket.on("connect", ...)` handler installed by the hook
(`src/hooks/WebSocket.ts` lines 66-81): marks the transport connected
and re-emits `join_task_room` for every task currently in
`activeTasksRef` ("Rejoin all active task rooms after reconnection"). -/
def connectHandler (hs : HookState) : HookState × List Msg :=
  ({ hs with connected := true }, hs.roomTasks.map Msg.joinRoom)

/-! ### ScriptModal (`src/components/ScriptModal.tsx`) -/

/-- One entry of the list `getNextActions` returns: the button label and
its `disabled` flag (the attached click handler is behaviour outside the
returned data). -/
structure NextAction where
  label : String
  disabled : Bool
deriving DecidableEq, Repr

/-- `getNextActions` from `src/components/ScriptModal.tsx`
(lines 186-225): three generation actions for `GENERATED` (disabled when
`script.script` is falsy), one upload action for `PRODUCED` (disabled
when `script.video_file` is falsy), and the empty list for every other
state. -/
def getNextActions (script : Script) : List NextAction :=
  match script.state with
  | .GENERATED =>
      [⟨"Generate Audio Only", !strTruthy script.script⟩,
       ⟨"Generate Video w/ Audio", !strTruthy script.script⟩,
       ⟨"Generate Video Only", !strTruthy script.script⟩]
  | .PRODUCED =>
      [⟨"Upload to TikTok", !strTruthy script.video_file⟩]
  | _ => []

/-! ### Studio page state (`src/app/page.tsx`)

The page's React state, sequentialized. JS `Map` is an association list
whose `set` replaces an existing key's value in place (preserving
insertion order) and otherwise appends; JS `Set` is a duplicate-free
list in insertion order. -/

/-- The value stored in the `failedTasks` map:
`{ scriptId: string; error: string }`. -/
structure FailedInfo where
  scriptId : String
  error : String
deriving DecidableEq, Repr

/-- The discriminator of a task update: `"completed" | "failed"`. -/
inductive UpdateType where
  | completed
  | failed
deriving DecidableEq, Repr

/-- A `task_update` payload as handled by `handleTaskUpdate`:
`{ task_id: string; type: "completed" | "failed"; error?: string }`. -/
structure TaskUpdate where
  task_id : String
  type : UpdateType
  error : Option String
deriving DecidableEq, Repr

/-- Lookup in the association-list model of a JS `Map`. -/
def mapLookup {β : Type} : List (String × β) → String → Option β
  | [], _ => none
  | p :: rest, k => if p.1 = k then some p.2 else mapLookup rest k

/-- `Map.set`: replace the value of an existing key in place (the list
stores each key once, as a JS `Map` does), otherwise append the new
binding at the end. -/
def mapSet {β : Type} : List (String × β) → String → β → List (String × β)
  | [], k, v => [(k, v)]
  | p :: rest, k, v =>
    if p.1 = k then (k, v) :: rest else p :: mapSet rest k v

/-- `Map.delete`: drop the binding of the key. -/
def mapDelete {β : Type} (m : List (String × β)) (k : String) :
    List (String × β) :=
  m.filter (fun p => p.1 ≠ k)

/-- `Set.add`: append unless already present. -/
def setAdd (l : List String) (x : String) : List String :=
  if x ∈ l then l else l ++ [x]

/-- JS `a || b` on an optional string: `undefined` and `""` fall through
to the default (used for `update.error || "Unknown error"`). -/
def jsOrStr (o : Option String) (d : String) : String :=
  match o with
  | some s => if s = "" then d else s
  | none => d

/-- JS template-literal rendering of a possibly-undefined string
(`${update.error}` prints `undefined` when the field is absent). -/
def jsTemplate (o : Option String) : String := o.getD "undefined"

/-- The API responses visible to one handler invocation:
`getStudioScripts` (`none` models a rejected fetch), `getScript` by id
(`none` models a failed request), and the `task_id` returned by
`POST /tasks/generate-script` (`none` models failure). -/
structure Env where
  studioScripts : Option (List Script)
  getScript : String → Option Script
  generateScript : Option String

/-- The studio page's state (`src/app/page.tsx` lines 59-73) plus the
WebSocket hook's state. -/
structure AppState where
  prompt : String
  scripts : List Script
  loading : Bool
  error : Option String
  isSubmitting : Bool
  selectedScript : Option Script
  activeTasks : List String
  failedTasks : List (String × FailedInfo)
  taskToScriptMap : List (String × String)
  isRefreshing : Bool
  hook : HookState
deriving DecidableEq, Repr

/-- `trackTask` (`src/app/page.tsx` lines 168-176): record the
task-to-script association, join the task's room, and add the task to
the page's `activeTasks` set. -/
def trackTask (st : AppState) (taskId scriptId : String) : AppState × List Msg :=
  let hj := joinTaskRoom st.hook taskId
  ({ st with
      taskToScriptMap := mapSet st.taskToScriptMap taskId scriptId,
      hook := hj.1,
      activeTasks := setAdd st.activeTasks taskId }, hj.2)

/-- `joinActiveTaskRooms` (`src/app/page.tsx` lines 179-199): for each
script in the list whose state is one of GENERATING, PRODUCING,
UPLOADING and whose `active_task_id` is truthy, call
`trackTask(script.active_task_id, script.id)`. -/
def joinActiveTaskRooms : AppState → List Script → AppState × List Msg
  | st, [] => (st, [])
  | st, s :: rest =>
    match (if isTransient s.state then activeTaskIdOf s else none) with
    | some t =>
      let r1 := trackTask st t s.id
      let r2 := joinActiveTaskRooms r1.1 rest
      (r2.1, r1.2 ++ r2.2)
    | none => joinActiveTaskRooms st rest

/-- `fetchScripts` (`src/app/page.tsx` lines 202-243): fetch the list;
on failure set the error message; on success store the list, keep a
`failedTasks` entry only when its script is still present in a
processing (transient) state, and, unless `skipTaskRooms`, join the
rooms of the transient scripts. -/
def fetchScripts (st : AppState) (env : Env) (skipTaskRooms : Bool) :
    AppState × List Msg :=
  match env.studioScripts with
  | none => ({ st with loading := false, error := some "Failed to fetch scripts" }, [])
  | some data =>
    let st1 := { st with
      loading := false, error := none, scripts := data,
      failedTasks := st.failedTasks.filter (fun p =>
        data.any (fun s => s.id == p.2.scriptId && isTransient s.state)) }
    if skipTaskRooms then (st1, []) else joinActiveTaskRooms st1 data

/-- `handleRefresh` (`src/app/page.tsx` lines 273-314): fetch the list
(on failure only an error message is set); on success store it, clear
`failedTasks`, `taskToScriptMap` and `activeTasks`, and rejoin rooms for
the processing scripts via `joinActiveTaskRooms`. The `connect()`
attempt made when the socket is down only initiates an asynchronous
reconnect; the hook state carries whatever connectivity holds when the
delayed `joinActiveTaskRooms` runs, so the model leaves `connected`
unchanged. -/
def handleRefresh (st : AppState) (env : Env) : AppState × List Msg :=
  match env.studioScripts with
  | none => ({ st with error := some "Failed to refresh scripts", isRefreshing := false }, [])
  | some data =>
    let st1 := { st with
      error := none, scripts := data,
      failedTasks := [], taskToScriptMap := [], activeTasks := [],
      isRefreshing := false }
    joinActiveTaskRooms st1 data

/-- `handleTaskUpdate` (`src/app/page.tsx` lines 76-161): dispatch on
the update type and on whether `taskToScriptMap` knows the task, then
unconditionally remove the task from `activeTasks` and from
`taskToScriptMap`. -/
def handleTaskUpdate (st : AppState) (env : Env) (upd : TaskUpdate) :
    AppState × List Msg :=
  let r1 :=
    match upd.type, mapLookup st.taskToScriptMap upd.task_id with
    | .completed, some scriptId =>
      match env.getScript scriptId with
      | some updatedScript =>
        ({ st with
            scripts := st.scripts.map
              (fun (s : Script) => if s.id = scriptId then updatedScript else s),
            selectedScript :=
              match st.selectedScript with
              | some sel => if sel.id = scriptId then some updatedScript else some sel
              | none => none,
            failedTasks := st.failedTasks.filter
              (fun p => p.2.scriptId ≠ scriptId) }, ([] : List Msg))
      | none => fetchScripts st env false
    | .completed, none => (st, [])
    | .failed, some scriptId =>
      let stf := { st with
        failedTasks := mapSet st.failedTasks upd.task_id
          ⟨scriptId, jsOrStr upd.error "Unknown error"⟩,
        error := some ("Task for script " ++ scriptId ++ " failed: "
          ++ jsTemplate upd.error) }
      fetchScripts stf env true
    | .failed, none =>
      ({ st with error := some ("Task " ++ upd.task_id ++ " failed: "
          ++ jsTemplate upd.error) }, [])
  ({ r1.1 with
      activeTasks := r1.1.activeTasks.filter (fun t => t ≠ upd.task_id),
      taskToScriptMap := mapDelete r1.1.taskToScriptMap upd.task_id }, r1.2)

/-- One step of the loop inside `handleScriptDelete`'s `setActiveTasks`
updater: `leaveTaskRoom(taskId)` for a map entry associated with the
deleted script, accumulating emitted messages. -/
def leaveStep (acc : HookState × List Msg) (p : String × String) :
    HookState × List Msg :=
  let r := leaveTaskRoom acc.1 p.1
  (r.1, acc.2 ++ r.2)

/-- `handleScriptDelete` (`src/app/page.tsx` lines 363-400): drop the
script from the list; for every `taskToScriptMap` entry pointing at the
script, delete the task from `activeTasks` and call `leaveTaskRoom`;
drop the script's entries from `failedTasks` and from
`taskToScriptMap`. -/
def handleScriptDelete (st : AppState) (scriptId : String) : AppState × List Msg :=
  let assoc := st.taskToScriptMap.filter (fun p => p.2 == scriptId)
  let hl := assoc.foldl leaveStep (st.hook, [])
  ({ st with
      scripts := st.scripts.filter (fun s => s.id ≠ scriptId),
      activeTasks := st.activeTasks.filter
        (fun t => !(st.taskToScriptMap.any (fun p => p.1 == t && p.2 == scriptId))),
      failedTasks := st.failedTasks.filter (fun p => p.2.scriptId ≠ scriptId),
      taskToScriptMap := st.taskToScriptMap.filter (fun p => p.2 ≠ scriptId),
      hook := hl.1 }, hl.2)

/-- JS `String.prototype.trim`: strip leading and trailing whitespace
(written directly on the character list so that it computes by
structural recursion). -/
def jsTrim (s : String) : String :=
  ⟨((s.data.dropWhile Char.isWhitespace).reverse.dropWhile
      Char.isWhitespace).reverse⟩

/-- `handleSubmit` (`src/app/page.tsx` lines 317-338): no-op when the
trimmed prompt is empty or a submission is in flight; otherwise submit
the prompt, and on success call `trackTask(response.task_id,
response.task_id)` ("For script generation, the task_id IS the script
ID"), clear the prompt, and run a full `fetchScripts`. -/
def handleSubmit (st : AppState) (env : Env) : AppState × List Msg :=
  if jsTrim st.prompt = "" ∨ st.isSubmitting = true then (st, [])
  else
    match env.generateScript with
    | none =>
      ({ st with error := some "Failed to generate script", isSubmitting := false }, [])
    | some tid =>
      let r1 := trackTask { st with isSubmitting := true, error := none } tid tid
      let r2 := fetchScripts { r1.1 with prompt := "" } env false
      ({ r2.1 with isSubmitting := false }, r1.2 ++ r2.2)

/-! ### Cost-management page (`src/app/cost-management/page.tsx`)

JS numbers are exact rationals here; `x || 0` on a number is the
identity for 0 and the default for an absent field. -/

/-- `s.script_cost || 0` and the like: absent cost is 0. -/
def jsNum (o : Option ℚ) : ℚ := o.getD 0

/-- `totalScriptCost` (lines 57-60): reduce over the fetched scripts. -/
def totalScriptCost (scripts : List Script) : ℚ :=
  scripts.foldl (fun sum s => sum + jsNum s.script_cost) 0

/-- `totalVideoCost` (lines 61-64). -/
def totalVideoCost (scripts : List Script) : ℚ :=
  scripts.foldl (fun sum s => sum + jsNum s.video_cost) 0

/-- The sort key of the line chart:
`s.updated_at ? new Date(s.updated_at).getTime() : 0`. -/
def updatedKey (s : Script) : ℕ := s.updated_at.getD 0

/-- `sortedScripts` (lines 97-101): the scripts in ascending order of
`updatedKey`. JS `Array.sort` with the comparator `aDate - bDate` is an
ascending stable sort; insertion sort realizes such an ordering, and the
stated properties depend only on the result being an ascending
rearrangement. -/
def sortedScripts (scripts : List Script) : List Script :=
  List.insertionSort (fun a b => updatedKey a ≤ updatedKey b) scripts

/-- The cumulative-cost series of the line chart (lines 107-110): each
entry extends the previous total (`acc[i-1] || 0`, i.e. the last
accumulated value or 0) by the script's two costs. -/
def cumulativeCosts (scripts : List Script) : List ℚ :=
  (sortedScripts scripts).foldl
    (fun acc s =>
      acc ++ [(acc.getLast?.getD 0) + jsNum s.script_cost + jsNum s.video_cost])
    []

/-- Helper recursion equal to the reduce above: the series from a given
running total. -/
def cumulFrom (prev : ℚ) : List Script → List ℚ
  | [] => []
  | s :: rest =>
    (prev + jsNum s.script_cost + jsNum s.video_cost)
      :: cumulFrom (prev + jsNum s.script_cost + jsNum s.video_cost) rest

/-- The per-script increment of the cumulative series. -/
def scriptTotal (s : Script) : ℚ := jsNum s.script_cost + jsNum s.video_cost

/-! ### Concrete fixtures used to evaluate the theorems -/

/-- A fresh page state: nothing tracked, socket connected. -/
def emptyApp : AppState :=
  ⟨"", [], false, none, false, none, [], [], [], false, ⟨true, []⟩⟩

/-- An environment whose script list is empty and whose other endpoints
fail. -/
def envEmpty : Env := ⟨some [], fun _ => none, none⟩

end Sloppy

namespace Sloppy

/-! ### Claim C8 -/

/-- C8: next-stage actions are offered exactly from stable non-terminal
states — `getNextActions` returns a non-empty list iff the script's
state is GENERATED or PRODUCED, and returns the empty list for every
transient state and for the terminal state UPLOADED. -/
theorem getNextActions_nonempty_iff_stable (s : Script) :
    (getNextActions s ≠ [] ↔ (s.state = .GENERATED ∨ s.state = .PRODUCED)) ∧
    ((isTransient s.state = true ∨ s.state = .UPLOADED) → getNextActions s = []) := by
  cases h : s.state <;> simp [getNextActions, h, isTransient]

/-- Witness for C8 at a concrete transient script: the theorem applied
at a GENERATING script yields the empty action list. -/
theorem getNextActions_nonempty_iff_stable_witness :
    getNextActions ⟨"s1", "p", none, .GENERATING, none, none, none, none, none,
      none, some "t1"⟩ = [] :=
  (getNextActions_nonempty_iff_stable _).2 (Or.inl (by decide))

/-! ### Claim C6 -/

/-- C6: joining a channel is idempotent — if the task id is already in
the hook's active-task set, `joinTaskRoom` emits no message and leaves
the state unchanged; and in general a second immediate call is a no-op
that emits nothing, so two calls have the same effect as one. -/
theorem joinTaskRoom_idempotent (hs : HookState) (t : String) :
    (t ∈ hs.roomTasks → joinTaskRoom hs t = (hs, [])) ∧
    joinTaskRoom (joinTaskRoom hs t).1 t = ((joinTaskRoom hs t).1, []) := by
  constructor
  · intro hmem
    unfold joinTaskRoom
    rcases hc : hs.connected with _ | _ <;> simp [hmem]
  · by_cases hmem : t ∈ hs.roomTasks
    · rcases hc : hs.connected with _ | _ <;> simp [joinTaskRoom, hc, hmem]
    · rcases hc : hs.connected with _ | _ <;> simp [joinTaskRoom, hc, hmem]

/-- Witness for C6 at a concrete state: the task `"t1"` is already
joined, and the call returns the state unchanged with no emission. -/
theorem joinTaskRoom_idempotent_witness :
    joinTaskRoom ⟨true, ["t1"]⟩ "t1" = (⟨true, ["t1"]⟩, []) :=
  (joinTaskRoom_idempotent ⟨true, ["t1"]⟩ "t1").1 (by decide)

/-! ### Claim C2

The claim states the connect handler never re-issues joins for
previously tracked channels. The code does the opposite: the handler
iterates `activeTasksRef` and emits `join_task_room` for every entry. -/

/-- C2 counterexample: with one previously tracked channel `"t1"`, the
connect handler emits a `join_task_room` message for it — refuting the
claim that no join is emitted for channels tracked before the
disconnect. -/
theorem connectHandler_rejoins_counterexample :
    (connectHandler ⟨false, ["t1"]⟩).2 = [Msg.joinRoom "t1"] ∧
    (connectHandler ⟨false, ["t1"]⟩).2 ≠ [] := by
  constructor <;> decide

/-- C2 amended: on transport re-establishment the channel layer itself
re-issues joins — the connect handler emits a `join_task_room` message
for every channel tracked before the disconnect and keeps it tracked. -/
theorem connectHandler_rejoins_all (hs : HookState) (t : String)
    (h : t ∈ hs.roomTasks) :
    Msg.joinRoom t ∈ (connectHandler hs).2 ∧
    t ∈ (connectHandler hs).1.roomTasks := by
  refine ⟨?_, h⟩
  exact List.mem_map_of_mem Msg.joinRoom h

/-- Witness for the amended C2: at a hook state tracking `"t1"`, the
connect handler's trace contains the rejoin message. -/
theorem connectHandler_rejoins_all_witness :
    Msg.joinRoom "t1" ∈ (connectHandler ⟨false, ["t1"]⟩).2 :=
  (connectHandler_rejoins_all ⟨false, ["t1"]⟩ "t1" (by decide)).1

end Sloppy

namespace Sloppy

/-! ### Helper lemmas about the JS `Map` / `Set` models -/

theorem mapLookup_mapSet_self {β : Type} (m : List (String × β)) (k : String) (v : β) :
    mapLookup (mapSet m k v) k = some v := by
  induction m with
  | nil =>
    show (if k = k then some v else mapLookup [] k) = some v
    rw [if_pos rfl]
  | cons p rest ih =>
    by_cases hp : p.1 = k
    · show mapLookup (if p.1 = k then (k, v) :: rest else p :: mapSet rest k v) k = some v
      rw [if_pos hp]
      show (if k = k then some v else mapLookup rest k) = some v
      rw [if_pos rfl]
    · show mapLookup (if p.1 = k then (k, v) :: rest else p :: mapSet rest k v) k = some v
      rw [if_neg hp]
      show (if p.1 = k then some p.2 else mapLookup (mapSet rest k v) k) = some v
      rw [if_neg hp]
      exact ih

theorem mapLookup_mapSet_ne {β : Type} (m : List (String × β)) (k : String) (v : β)
    (k' : String) (hne : k' ≠ k) :
    mapLookup (mapSet m k v) k' = mapLookup m k' := by
  have hkk' : ¬ ((k : String) = k') := fun hc => hne hc.symm
  induction m with
  | nil =>
    show (if k = k' then some v else mapLookup [] k') = mapLookup [] k'
    rw [if_neg hkk']
  | cons p rest ih =>
    by_cases hp : p.1 = k
    · show mapLookup (if p.1 = k then (k, v) :: rest else p :: mapSet rest k v) k'
        = (if p.1 = k' then some p.2 else mapLookup rest k')
      rw [if_pos hp]
      show (if k = k' then some v else mapLookup rest k')
        = (if p.1 = k' then some p.2 else mapLookup rest k')
      rw [if_neg hkk', if_neg (by rw [hp]; exact hkk')]
    · show mapLookup (if p.1 = k then (k, v) :: rest else p :: mapSet rest k v) k'
        = (if p.1 = k' then some p.2 else mapLookup rest k')
      rw [if_neg hp]
      show (if p.1 = k' then some p.2 else mapLookup (mapSet rest k v) k')
        = (if p.1 = k' then some p.2 else mapLookup rest k')
      by_cases hp' : p.1 = k'
      · rw [if_pos hp', if_pos hp']
      · rw [if_neg hp', if_neg hp']
        exact ih

theorem mapLookup_mapDelete_self {β : Type} (m : List (String × β)) (k : String) :
    mapLookup (mapDelete m k) k = none := by
  induction m with
  | nil => rfl
  | cons p rest ih =>
    by_cases hp : p.1 = k
    · simpa [mapDelete, hp] using ih
    · simpa [mapDelete, hp, mapLookup] using ih

theorem mem_setAdd (l : List String) (x t : String) :
    t ∈ setAdd l x ↔ t ∈ l ∨ t = x := by
  unfold setAdd
  by_cases h : x ∈ l
  · rw [if_pos h]
    constructor
    · exact Or.inl
    · rintro (ht | rfl)
      · exact ht
      · exact h
  · rw [if_neg h]
    simp

/-! ### Claim C3 -/

/-- C3: for every task update processed by `handleTaskUpdate` — whatever
its type and whether or not its `task_id` is known to
`taskToScriptMap` — the `task_id` is removed from `activeTasks` and from
`taskToScriptMap` after processing. -/
theorem handleTaskUpdate_clears_bookkeeping (st : AppState) (env : Env)
    (upd : TaskUpdate) :
    upd.task_id ∉ (handleTaskUpdate st env upd).1.activeTasks ∧
    mapLookup (handleTaskUpdate st env upd).1.taskToScriptMap upd.task_id = none := by
  constructor
  · simp [handleTaskUpdate, List.mem_filter]
  · simp [handleTaskUpdate, mapLookup_mapDelete_self]

/-! ### Claim C4

The claim asserts an unknown task update is discarded without surfacing
any error. The code does leave the script list untouched, but for a
`failed` update with unknown task id it sets the page error message, so
an error is surfaced to the observer. -/

/-- C4 counterexample: a `failed` update whose task id has no entry in
`taskToScriptMap` sets the page's error banner (starting from a state
with no error), refuting the claim that no error is surfaced for both
kinds of updates. -/
theorem handleTaskUpdate_unknown_failed_error_counterexample :
    (handleTaskUpdate emptyApp envEmpty ⟨"t9", .failed, some "boom"⟩).1.error
      = some "Task t9 failed: boom" ∧
    emptyApp.error = none := by
  constructor
  · rfl
  · rfl

/-- C4 amended: a task update whose `task_id` is not in
`taskToScriptMap` leaves the scripts list unchanged, emits no socket
message, raises no exception, and still clears the task's bookkeeping;
a `completed` update also leaves the error state unchanged, but a
`failed` update sets a generic error message for the observer. -/
theorem handleTaskUpdate_unknown_discarded (st : AppState) (env : Env)
    (upd : TaskUpdate)
    (h : mapLookup st.taskToScriptMap upd.task_id = none) :
    (handleTaskUpdate st env upd).1.scripts = st.scripts ∧
    (handleTaskUpdate st env upd).2 = [] ∧
    (upd.type = .completed → (handleTaskUpdate st env upd).1.error = st.error) ∧
    (upd.type = .failed → (handleTaskUpdate st env upd).1.error
        = some ("Task " ++ upd.task_id ++ " failed: " ++ jsTemplate upd.error)) ∧
    upd.task_id ∉ (handleTaskUpdate st env upd).1.activeTasks := by
  cases htype : upd.type <;>
    simp [handleTaskUpdate, h, htype, List.mem_filter]

/-- Witness for the amended C4 at a concrete unknown `completed` update:
the hypothesis holds by computation and the scripts list is returned
unchanged. -/
theorem handleTaskUpdate_unknown_discarded_witness :
    mapLookup emptyApp.taskToScriptMap "t9" = none ∧
    (handleTaskUpdate emptyApp envEmpty ⟨"t9", .completed, none⟩).1.scripts
      = emptyApp.scripts :=
  ⟨rfl, (handleTaskUpdate_unknown_discarded emptyApp envEmpty
      ⟨"t9", .completed, none⟩ rfl).1⟩

/-! ### Helper lemmas about the hook and the room-joining loop -/

theorem joinTaskRoom_msgs (hs : HookState) (t : String) :
    ∀ m ∈ (joinTaskRoom hs t).2, m = Msg.joinRoom t := by
  intro m hm
  unfold joinTaskRoom at hm
  by_cases hc : hs.connected = false
  · rw [if_pos hc] at hm
    simp at hm
  · rw [if_neg hc] at hm
    by_cases hmem : t ∈ hs.roomTasks
    · rw [if_pos hmem] at hm
      simp at hm
    · rw [if_neg hmem] at hm
      simpa using hm

theorem joinTaskRoom_roomTasks_mono (hs : HookState) (t t' : String)
    (h : t' ∈ hs.roomTasks) : t' ∈ (joinTaskRoom hs t).1.roomTasks := by
  unfold joinTaskRoom
  by_cases hc : hs.connected = false
  · rw [if_pos hc]
    exact h
  · rw [if_neg hc]
    by_cases hmem : t ∈ hs.roomTasks
    · rw [if_pos hmem]
      exact h
    · rw [if_neg hmem]
      exact List.mem_append_left _ h

theorem joinActiveTaskRooms_activeTasks (l : List Script) :
    ∀ (st : AppState) (t : String),
      t ∈ (joinActiveTaskRooms st l).1.activeTasks ↔
        t ∈ st.activeTasks ∨ t ∈ transientTaskIds l := by
  induction l with
  | nil =>
    intro st t
    simp [joinActiveTaskRooms, transientTaskIds]
  | cons s rest ih =>
    intro st t
    rcases hg : (if isTransient s.state then activeTaskIdOf s else none) with _ | t0
    · have htt : transientTaskIds (s :: rest) = transientTaskIds rest := by
        simp [transientTaskIds, hg]
      simp only [joinActiveTaskRooms, hg]
      rw [ih st t, htt]
    · have htt : transientTaskIds (s :: rest) = t0 :: transientTaskIds rest := by
        simp [transientTaskIds, hg]
      simp only [joinActiveTaskRooms, hg]
      rw [ih (trackTask st t0 s.id).1 t, htt]
      have hat : (trackTask st t0 s.id).1.activeTasks = setAdd st.activeTasks t0 := rfl
      rw [hat, mem_setAdd]
      simp only [List.mem_cons]
      tauto

theorem joinActiveTaskRooms_failedTasks (l : List Script) :
    ∀ st : AppState, (joinActiveTaskRooms st l).1.failedTasks = st.failedTasks := by
  induction l with
  | nil => intro st; rfl
  | cons s rest ih =>
    intro st
    rcases hg : (if isTransient s.state then activeTaskIdOf s else none) with _ | t0
    · simp only [joinActiveTaskRooms, hg]
      exact ih st
    · simp only [joinActiveTaskRooms, hg]
      rw [ih]
      rfl

theorem joinActiveTaskRooms_msgs (l : List Script) :
    ∀ (st : AppState) (m : Msg), m ∈ (joinActiveTaskRooms st l).2 →
      ∃ t ∈ transientTaskIds l, m = Msg.joinRoom t := by
  induction l with
  | nil =>
    intro st m hm
    simp [joinActiveTaskRooms] at hm
  | cons s rest ih =>
    intro st m hm
    rcases hg : (if isTransient s.state then activeTaskIdOf s else none) with _ | t0
    · have htt : transientTaskIds (s :: rest) = transientTaskIds rest := by
        simp [transientTaskIds, hg]
      simp only [joinActiveTaskRooms, hg] at hm
      rw [htt]
      exact ih st m hm
    · have htt : transientTaskIds (s :: rest) = t0 :: transientTaskIds rest := by
        simp [transientTaskIds, hg]
      simp only [joinActiveTaskRooms, hg] at hm
      rw [htt]
      rcases List.mem_append.mp hm with h1 | h2
      · have h1' : m ∈ (joinTaskRoom st.hook t0).2 := h1
        exact ⟨t0, List.mem_cons_self _ _, joinTaskRoom_msgs st.hook t0 m h1'⟩
      · obtain ⟨t, ht, hmt⟩ := ih (trackTask st t0 s.id).1 m h2
        exact ⟨t, List.mem_cons_of_mem _ ht, hmt⟩

theorem joinActiveTaskRooms_roomTasks_mono (l : List Script) :
    ∀ (st : AppState) (t : String), t ∈ st.hook.roomTasks →
      t ∈ (joinActiveTaskRooms st l).1.hook.roomTasks := by
  induction l with
  | nil =>
    intro st t h
    exact h
  | cons s rest ih =>
    intro st t h
    rcases hg : (if isTransient s.state then activeTaskIdOf s else none) with _ | t0
    · simp only [joinActiveTaskRooms, hg]
      exact ih st t h
    · simp only [joinActiveTaskRooms, hg]
      apply ih
      have hh : (trackTask st t0 s.id).1.hook = (joinTaskRoom st.hook t0).1 := rfl
      rw [hh]
      exact joinTaskRoom_roomTasks_mono st.hook t0 t h

/-! ### Claim C1

The claim asserts one `handleRefresh` pass leaves the local subscription
set exactly at the transient task ids, with no channel of a
stable/terminal script remaining joined. The page-level bookkeeping
(`activeTasks`, `failedTasks`, `taskToScriptMap`) does converge and
only transient channels are newly joined, but `handleRefresh` never
issues a leave, so a channel joined before the refresh for a script that
has since left its transient state stays in the hook's joined-room
set. -/

/-- C1 counterexample: the socket is connected and room `"t1"` is
joined; the refreshed list reports its script in the terminal state
UPLOADED, so `"t1"` is not a transient task id — yet after
`handleRefresh` the room is still joined (and no message at all, in
particular no leave, was emitted), refuting the claim that no channel
for a stable or terminal script remains joined. -/
theorem handleRefresh_stale_room_counterexample :
    "t1" ∈ (handleRefresh { emptyApp with hook := ⟨true, ["t1"]⟩ }
        ⟨some [⟨"s1", "p", none, .UPLOADED, none, none, none, none, none, none, some "t1"⟩],
         fun _ => none, none⟩).1.hook.roomTasks ∧
    "t1" ∉ transientTaskIds
        [⟨"s1", "p", none, .UPLOADED, none, none, none, none, none, none, some "t1"⟩] ∧
    (handleRefresh { emptyApp with hook := ⟨true, ["t1"]⟩ }
        ⟨some [⟨"s1", "p", none, .UPLOADED, none, none, none, none, none, none, some "t1"⟩],
         fun _ => none, none⟩).2 = [] := by
  refine ⟨?_, ?_, ?_⟩ <;> decide

/-- C1 amended: when the fetch succeeds, one `handleRefresh` pass makes
the page's `activeTasks` set exactly the transient task ids of the
fetched list, clears `failedTasks`, and emits join messages only for
transient task ids; the hook's joined-room set, however, is not
reconciled (no leave is ever issued — see the counterexample). -/
theorem handleRefresh_converges (st : AppState) (env : Env) (data : List Script)
    (h : env.studioScripts = some data) :
    (∀ t, t ∈ (handleRefresh st env).1.activeTasks ↔ t ∈ transientTaskIds data) ∧
    (handleRefresh st env).1.failedTasks = [] ∧
    ∀ m ∈ (handleRefresh st env).2, ∃ t ∈ transientTaskIds data, m = Msg.joinRoom t := by
  refine ⟨?_, ?_, ?_⟩
  · intro t
    simp only [handleRefresh, h]
    rw [joinActiveTaskRooms_activeTasks]
    simp
  · simp only [handleRefresh, h]
    rw [joinActiveTaskRooms_failedTasks]
  · intro m hm
    simp only [handleRefresh, h] at hm
    exact joinActiveTaskRooms_msgs data _ m hm

/-- Witness for the amended C1: with a connected socket and a fetched
list holding one GENERATING script with task `"t1"`, a refresh makes
membership of `"t1"` in `activeTasks` match its membership in the
transient task ids. -/
theorem handleRefresh_converges_witness :
    (Env.mk
        (some [⟨"s1", "p", none, .GENERATING, none, none, none, none, none, none, some "t1"⟩])
        (fun _ => none) none).studioScripts
      = some [⟨"s1", "p", none, .GENERATING, none, none, none, none, none, none, some "t1"⟩] ∧
    ("t1" ∈ (handleRefresh emptyApp
        (Env.mk
          (some [⟨"s1", "p", none, .GENERATING, none, none, none, none, none, none, some "t1"⟩])
          (fun _ => none) none)).1.activeTasks ↔
      "t1" ∈ transientTaskIds
        [⟨"s1", "p", none, .GENERATING, none, none, none, none, none, none, some "t1"⟩]) :=
  ⟨rfl, (handleRefresh_converges emptyApp _ _ rfl).1 "t1"⟩

/-! ### Claim C7

The claim asserts `fetchScripts` both prunes stale cached errors and
issues `leave` for channels whose items are gone. The pruning is real;
the leaving is not: `fetchScripts` never calls `leaveTaskRoom`. -/

/-- C7 counterexample: room `"t1"` is joined and a failed-task error for
script `"s1"` is cached; the fetched list reports `"s1"` rolled back to
the stable state GENERATED. `fetchScripts` drops the cached error but
emits no message at all — no `leave_task_room` — and `"t1"` stays in the
hook's joined-room set, refuting the claim that channels of items no
longer transient are left. -/
theorem fetchScripts_no_leave_counterexample :
    (fetchScripts { emptyApp with
        failedTasks := [("t1", ⟨"s1", "boom"⟩)], hook := ⟨true, ["t1"]⟩ }
      ⟨some [⟨"s1", "p", none, .GENERATED, none, none, none, none, none, none, none⟩],
       fun _ => none, none⟩ false).2 = [] ∧
    "t1" ∈ (fetchScripts { emptyApp with
        failedTasks := [("t1", ⟨"s1", "boom"⟩)], hook := ⟨true, ["t1"]⟩ }
      ⟨some [⟨"s1", "p", none, .GENERATED, none, none, none, none, none, none, none⟩],
       fun _ => none, none⟩ false).1.hook.roomTasks ∧
    (fetchScripts { emptyApp with
        failedTasks := [("t1", ⟨"s1", "boom"⟩)], hook := ⟨true, ["t1"]⟩ }
      ⟨some [⟨"s1", "p", none, .GENERATED, none, none, none, none, none, none, none⟩],
       fun _ => none, none⟩ false).1.failedTasks = [] := by
  refine ⟨?_, ?_, ?_⟩ <;> decide

/-- C7 amended: after a successful fetch, a `failedTasks` entry survives
only if its script appears in the fetched list in a transient state
(every other cached error is dropped), but no `leave_task_room` is ever
emitted and every previously joined room stays in the hook's joined-room
set. -/
theorem fetchScripts_prunes_failed (st : AppState) (env : Env) (data : List Script)
    (skip : Bool) (h : env.studioScripts = some data) :
    (∀ p ∈ (fetchScripts st env skip).1.failedTasks,
        ∃ s ∈ data, s.id = p.2.scriptId ∧ isTransient s.state = true) ∧
    (∀ m ∈ (fetchScripts st env skip).2, ∀ t, m ≠ Msg.leaveRoom t) ∧
    (∀ t, t ∈ st.hook.roomTasks → t ∈ (fetchScripts st env skip).1.hook.roomTasks) := by
  refine ⟨?_, ?_, ?_⟩
  · intro p hp
    simp only [fetchScripts, h] at hp
    cases skip with
    | true =>
      simp only [if_pos rfl] at hp
      have := (List.mem_filter.mp hp).2
      simpa [List.any_eq_true, Bool.and_eq_true, beq_iff_eq] using this
    | false =>
      simp only [Bool.false_eq_true, if_false] at hp
      rw [joinActiveTaskRooms_failedTasks] at hp
      have := (List.mem_filter.mp hp).2
      simpa [List.any_eq_true, Bool.and_eq_true, beq_iff_eq] using this
  · intro m hm t
    simp only [fetchScripts, h] at hm
    cases skip with
    | true =>
      simp only [if_pos rfl] at hm
      simp at hm
    | false =>
      simp only [Bool.false_eq_true, if_false] at hm
      obtain ⟨t0, _, hmt⟩ := joinActiveTaskRooms_msgs data _ m hm
      rw [hmt]
      exact fun hc => Msg.noConfusion hc
  · intro t ht
    simp only [fetchScripts, h]
    cases skip with
    | true =>
      simp only [if_pos rfl]
      exact ht
    | false =>
      simp only [Bool.false_eq_true, if_false]
      exact joinActiveTaskRooms_roomTasks_mono data _ t ht

/-- Witness for the amended C7: a successful empty fetch keeps the
previously joined room `"t1"` in the hook's joined-room set. -/
theorem fetchScripts_prunes_failed_witness :
    envEmpty.studioScripts = some [] ∧
    "t1" ∈ (fetchScripts { emptyApp with hook := ⟨true, ["t1"]⟩ }
        envEmpty false).1.hook.roomTasks :=
  ⟨rfl, (fetchScripts_prunes_failed { emptyApp with hook := ⟨true, ["t1"]⟩ }
      envEmpty [] false rfl).2.2 "t1" (by decide)⟩

/-! ### Helper lemmas for the delete-cleanup loop -/

theorem leaveStep_connected (acc : HookState × List Msg) (p : String × String) :
    (leaveStep acc p).1.connected = acc.1.connected := by
  show (leaveTaskRoom acc.1 p.1).1.connected = acc.1.connected
  unfold leaveTaskRoom
  by_cases hc : acc.1.connected = false
  · rw [if_pos hc]
  · rw [if_neg hc]

theorem foldl_leaveStep_msgs_mono (l : List (String × String)) :
    ∀ (acc : HookState × List Msg) (m : Msg), m ∈ acc.2 →
      m ∈ (l.foldl leaveStep acc).2 := by
  induction l with
  | nil =>
    intro acc m hm
    exact hm
  | cons q rest ih =>
    intro acc m hm
    apply ih
    show m ∈ acc.2 ++ (leaveTaskRoom acc.1 q.1).2
    exact List.mem_append_left _ hm

theorem foldl_leaveStep_emits (l : List (String × String)) :
    ∀ (acc : HookState × List Msg), acc.1.connected = true →
      ∀ p ∈ l, Msg.leaveRoom p.1 ∈ (l.foldl leaveStep acc).2 := by
  induction l with
  | nil =>
    intro acc _ p hp
    simp at hp
  | cons q rest ih =>
    intro acc hc p hp
    rcases List.mem_cons.mp hp with rfl | hp'
    · show Msg.leaveRoom p.1 ∈ (rest.foldl leaveStep (leaveStep acc p)).2
      apply foldl_leaveStep_msgs_mono
      show Msg.leaveRoom p.1 ∈ acc.2 ++ (leaveTaskRoom acc.1 p.1).2
      apply List.mem_append_right
      unfold leaveTaskRoom
      rw [if_neg (by rw [hc]; exact fun h => Bool.noConfusion h)]
      simp
    · exact ih (leaveStep acc q) (by rw [leaveStep_connected]; exact hc) p hp'

/-! ### Claim C5

The claim asserts deletion releases every channel subscription of the
script. The page bookkeeping is indeed fully cleaned, and when the
socket is connected a `leave_task_room` is emitted for every associated
task — but `leaveTaskRoom` silently returns when the socket is not
connected, so no leave is emitted then. -/

/-- C5 counterexample: with the socket disconnected, deleting script
`"s1"`, whose task `"t1"` is tracked in `taskToScriptMap`, emits no
message at all — no `leave_task_room` — refuting the unconditional claim
that every associated channel subscription is released. -/
theorem handleScriptDelete_disconnected_counterexample :
    ("t1", "s1") ∈ ({ emptyApp with taskToScriptMap := [("t1", "s1")], hook := ⟨false, ["t1"]⟩ } : AppState).taskToScriptMap ∧
    (handleScriptDelete { emptyApp with taskToScriptMap := [("t1", "s1")], hook := ⟨false, ["t1"]⟩ } "s1").2 = [] := by
  constructor <;> decide

/-- C5 amended: `handleScriptDelete` removes the script from the list;
for every task id that `taskToScriptMap` associates with it, it emits
`leave_task_room` provided the socket is connected (when disconnected
nothing is emitted), and removes the task id from `activeTasks`; and no
`failedTasks` or `taskToScriptMap` entry for the script survives. -/
theorem handleScriptDelete_cleans (st : AppState) (scriptId : String) :
    (handleScriptDelete st scriptId).1.scripts
      = st.scripts.filter (fun s => s.id ≠ scriptId) ∧
    (∀ t, (t, scriptId) ∈ st.taskToScriptMap →
      (st.hook.connected = true →
        Msg.leaveRoom t ∈ (handleScriptDelete st scriptId).2) ∧
      t ∉ (handleScriptDelete st scriptId).1.activeTasks) ∧
    (∀ p ∈ (handleScriptDelete st scriptId).1.failedTasks,
      p.2.scriptId ≠ scriptId) ∧
    (∀ p ∈ (handleScriptDelete st scriptId).1.taskToScriptMap,
      p.2 ≠ scriptId) := by
  refine ⟨rfl, ?_, ?_, ?_⟩
  · intro t ht
    constructor
    · intro hc
      show Msg.leaveRoom t ∈
        ((st.taskToScriptMap.filter (fun p => p.2 == scriptId)).foldl
          leaveStep (st.hook, [])).2
      have hmemf : ((t, scriptId) : String × String) ∈
          st.taskToScriptMap.filter (fun p => p.2 == scriptId) :=
        List.mem_filter.mpr ⟨ht, by simp⟩
      exact foldl_leaveStep_emits _ (st.hook, []) hc (t, scriptId) hmemf
    · intro hmem
      have hmem' : t ∈ st.activeTasks.filter
          (fun t => !(st.taskToScriptMap.any
            (fun p => p.1 == t && p.2 == scriptId))) := hmem
      have hpred := (List.mem_filter.mp hmem').2
      have hany : st.taskToScriptMap.any
          (fun p => p.1 == t && p.2 == scriptId) = true :=
        List.any_eq_true.mpr ⟨(t, scriptId), ht, by simp⟩
      rw [hany] at hpred
      simp at hpred
  · intro p hp
    have hp' : p ∈ st.failedTasks.filter (fun p => p.2.scriptId ≠ scriptId) := hp
    have := (List.mem_filter.mp hp').2
    simpa using this
  · intro p hp
    have hp' : p ∈ st.taskToScriptMap.filter (fun p => p.2 ≠ scriptId) := hp
    have := (List.mem_filter.mp hp').2
    simpa using this

/-- Witness for the amended C5: with a connected socket, deleting
`"s1"` emits the leave message for its tracked task `"t1"`. -/
theorem handleScriptDelete_cleans_witness :
    ("t1", "s1") ∈ ({ emptyApp with taskToScriptMap := [("t1", "s1")], activeTasks := ["t1"], hook := ⟨true, ["t1"]⟩ } : AppState).taskToScriptMap ∧
    Msg.leaveRoom "t1" ∈ (handleScriptDelete { emptyApp with taskToScriptMap := [("t1", "s1")], activeTasks := ["t1"], hook := ⟨true, ["t1"]⟩ } "s1").2 :=
  ⟨by decide, ((handleScriptDelete_cleans { emptyApp with taskToScriptMap := [("t1", "s1")], activeTasks := ["t1"], hook := ⟨true, ["t1"]⟩ } "s1").2.1 "t1" (by decide)).1 rfl⟩

/-! ### Claim C10 -/

theorem guard_active_task (s : Script) (k : String)
    (h : (if isTransient s.state then activeTaskIdOf s else none) = some k) :
    s.active_task_id = some k := by
  by_cases ht : isTransient s.state = true
  · rw [if_pos ht] at h
    unfold activeTaskIdOf at h
    cases hat : s.active_task_id with
    | none =>
      rw [hat] at h
      change (none : Option String) = some k at h
      exact Option.noConfusion h
    | some t =>
      rw [hat] at h
      change (if t = "" then none else some t) = some k at h
      by_cases he : t = ""
      · rw [if_pos he] at h
        exact Option.noConfusion h
      · rw [if_neg he] at h
        exact h
  · rw [if_neg ht] at h
    exact Option.noConfusion h

theorem joinActiveTaskRooms_mapLookup (l : List Script) :
    ∀ (st : AppState) (k v : String),
      mapLookup st.taskToScriptMap k = some v →
      (∀ s ∈ l, (if isTransient s.state then activeTaskIdOf s else none) = some k
        → s.id = v) →
      mapLookup (joinActiveTaskRooms st l).1.taskToScriptMap k = some v := by
  induction l with
  | nil =>
    intro st k v h _
    exact h
  | cons s rest ih =>
    intro st k v h hcons
    rcases hg : (if isTransient s.state then activeTaskIdOf s else none) with _ | t0
    · simp only [joinActiveTaskRooms, hg]
      exact ih st k v h fun s' hs' => hcons s' (List.mem_cons_of_mem _ hs')
    · simp only [joinActiveTaskRooms, hg]
      apply ih
      · have hmap : (trackTask st t0 s.id).1.taskToScriptMap
            = mapSet st.taskToScriptMap t0 s.id := rfl
        rw [hmap]
        by_cases hk : t0 = k
        · subst hk
          have hid : s.id = v := hcons s (List.mem_cons_self _ _) hg
          rw [hid]
          exact mapLookup_mapSet_self _ _ _
        · rw [mapLookup_mapSet_ne _ _ _ _ (fun hc => hk hc.symm)]
          exact h
      · exact fun s' hs' => hcons s' (List.mem_cons_of_mem _ hs')

/-- C10: for a script-generation submission the returned task id is
recorded as both the task id and the script id — after `handleSubmit`
succeeds (non-empty trimmed prompt, no submission in flight, the
generate endpoint returning `tid`, the follow-up fetch succeeding with a
list whose scripts only carry `tid` as the id of the script named `tid`,
as the backend guarantees for draft jobs), `taskToScriptMap` maps `tid`
to `tid` itself and `tid` is in the page's `activeTasks` set, so the
notification channel id coincides with the content item id. -/
theorem handleSubmit_records_task_as_script (st : AppState) (env : Env)
    (data : List Script) (tid : String)
    (hp : ¬ jsTrim st.prompt = "") (hsub : st.isSubmitting = false)
    (hg : env.generateScript = some tid)
    (hd : env.studioScripts = some data)
    (hcons : ∀ s ∈ data, s.active_task_id = some tid → s.id = tid) :
    mapLookup (handleSubmit st env).1.taskToScriptMap tid = some tid ∧
    tid ∈ (handleSubmit st env).1.activeTasks := by
  have hcond : ¬ (jsTrim st.prompt = "" ∨ st.isSubmitting = true) := by
    rintro (h1 | h2)
    · exact hp h1
    · rw [hsub] at h2
      exact Bool.noConfusion h2
  constructor
  · simp only [handleSubmit, if_neg hcond, hg, fetchScripts, hd, Bool.false_eq_true,
      if_false]
    apply joinActiveTaskRooms_mapLookup
    · show mapLookup (mapSet st.taskToScriptMap tid tid) tid = some tid
      exact mapLookup_mapSet_self _ _ _
    · exact fun s hs hguard => hcons s hs (guard_active_task s tid hguard)
  · simp only [handleSubmit, if_neg hcond, hg, fetchScripts, hd, Bool.false_eq_true,
      if_false]
    rw [joinActiveTaskRooms_activeTasks]
    left
    show tid ∈ setAdd st.activeTasks tid
    rw [mem_setAdd]
    right
    rfl

/-- Witness for C10: a concrete submission with prompt `"hi"` and task
id `"t1"` records the mapping `"t1" ↦ "t1"`. -/
theorem handleSubmit_records_task_as_script_witness :
    ¬ (jsTrim ({ emptyApp with prompt := "hi" } : AppState).prompt = "") ∧
    mapLookup (handleSubmit { emptyApp with prompt := "hi" } ⟨some [], fun _ => none, some "t1"⟩).1.taskToScriptMap "t1" = some "t1" :=
  ⟨by decide, (handleSubmit_records_task_as_script { emptyApp with prompt := "hi" } ⟨some [], fun _ => none, some "t1"⟩ [] "t1" (by decide) rfl rfl rfl (by simp)).1⟩

/-! ### Helper lemmas for the cumulative cost series -/

theorem getLast?_cons_of_ne {α : Type} (a : α) (l : List α) (h : l ≠ []) :
    (a :: l).getLast? = l.getLast? := by
  cases l with
  | nil => exact absurd rfl h
  | cons b t => rfl

theorem costFoldl_eq_cumulFrom (l : List Script) :
    ∀ acc : List ℚ,
      l.foldl (fun acc s =>
        acc ++ [(acc.getLast?.getD 0) + jsNum s.script_cost + jsNum s.video_cost]) acc
      = acc ++ cumulFrom (acc.getLast?.getD 0) l := by
  induction l with
  | nil =>
    intro acc
    simp [cumulFrom]
  | cons s rest ih =>
    intro acc
    rw [List.foldl_cons, ih, List.getLast?_concat]
    simp [cumulFrom, List.append_assoc]

theorem cumulFrom_mem_le (l : List Script) :
    ∀ prev : ℚ, (∀ s ∈ l, 0 ≤ scriptTotal s) → ∀ q ∈ cumulFrom prev l, prev ≤ q := by
  induction l with
  | nil =>
    intro prev _ q hq
    simp [cumulFrom] at hq
  | cons s rest ih =>
    intro prev hns q hq
    have hstep : cumulFrom prev (s :: rest)
        = (prev + jsNum s.script_cost + jsNum s.video_cost)
          :: cumulFrom (prev + jsNum s.script_cost + jsNum s.video_cost) rest := rfl
    rw [hstep] at hq
    have hs0 : 0 ≤ scriptTotal s := hns s (List.mem_cons_self _ _)
    have hple : prev ≤ prev + jsNum s.script_cost + jsNum s.video_cost := by
      calc prev = prev + 0 := by ring
        _ ≤ prev + scriptTotal s := add_le_add_left hs0 prev
        _ = prev + jsNum s.script_cost + jsNum s.video_cost := by
            rw [scriptTotal]; ring
    rcases List.mem_cons.mp hq with rfl | hq'
    · exact hple
    · exact le_trans hple
        (ih _ (fun s' hs' => hns s' (List.mem_cons_of_mem _ hs')) q hq')

theorem cumulFrom_sorted (l : List Script) :
    ∀ prev : ℚ, (∀ s ∈ l, 0 ≤ scriptTotal s) →
      List.Sorted (· ≤ ·) (cumulFrom prev l) := by
  induction l with
  | nil =>
    intro prev _
    simp [cumulFrom]
  | cons s rest ih =>
    intro prev hns
    have hstep : cumulFrom prev (s :: rest)
        = (prev + jsNum s.script_cost + jsNum s.video_cost)
          :: cumulFrom (prev + jsNum s.script_cost + jsNum s.video_cost) rest := rfl
    rw [hstep]
    refine List.sorted_cons.mpr ⟨?_, ?_⟩
    · intro q hq
      exact cumulFrom_mem_le rest _
        (fun s' hs' => hns s' (List.mem_cons_of_mem _ hs')) q hq
    · exact ih _ (fun s' hs' => hns s' (List.mem_cons_of_mem _ hs'))

theorem cumulFrom_getLast_cons (s : Script) (rest : List Script) :
    ∀ prev : ℚ, (cumulFrom prev (s :: rest)).getLast?
      = some (prev + ((s :: rest).map scriptTotal).sum) := by
  induction rest generalizing s with
  | nil =>
    intro prev
    simp [cumulFrom, scriptTotal]
    ring
  | cons s2 rest2 ih =>
    intro prev
    have hstep : cumulFrom prev (s :: s2 :: rest2)
        = (prev + jsNum s.script_cost + jsNum s.video_cost)
          :: cumulFrom (prev + jsNum s.script_cost + jsNum s.video_cost) (s2 :: rest2) := rfl
    rw [hstep, getLast?_cons_of_ne _ _ (by simp [cumulFrom]), ih]
    rw [Option.some.injEq]
    simp only [List.map_cons, List.sum_cons, scriptTotal]
    ring

theorem foldl_add_map (f : Script → ℚ) (l : List Script) :
    ∀ a : ℚ, l.foldl (fun acc s => acc + f s) a = a + (l.map f).sum := by
  induction l with
  | nil =>
    intro a
    simp
  | cons s rest ih =>
    intro a
    rw [List.foldl_cons, ih]
    simp only [List.map_cons, List.sum_cons]
    ring

theorem map_scriptTotal_sum (l : List Script) :
    (l.map scriptTotal).sum
      = (l.map (fun s => jsNum s.script_cost)).sum
        + (l.map (fun s => jsNum s.video_cost)).sum := by
  induction l with
  | nil => simp
  | cons s rest ih =>
    simp only [List.map_cons, List.sum_cons, ih, scriptTotal]
    ring

/-! ### Claim C9 -/

/-- C9: when every script's costs are non-negative (absent costs count
as 0), the cumulative cost series of the cost-management page is
nondecreasing along its indices, and its last value is
`totalScriptCost + totalVideoCost` (for an empty list the series is
empty and the fallback value 0 matches the zero totals). -/
theorem costPage_cumulative_monotone (scripts : List Script)
    (h : ∀ s ∈ scripts, 0 ≤ jsNum s.script_cost ∧ 0 ≤ jsNum s.video_cost) :
    List.Sorted (· ≤ ·) (cumulativeCosts scripts) ∧
    (cumulativeCosts scripts).getLast?.getD 0
      = totalScriptCost scripts + totalVideoCost scripts := by
  have hperm : List.Perm (sortedScripts scripts) scripts :=
    List.perm_insertionSort _ scripts
  have hns : ∀ s ∈ sortedScripts scripts, 0 ≤ scriptTotal s := by
    intro s hs
    obtain ⟨h1, h2⟩ := h s (hperm.mem_iff.mp hs)
    exact add_nonneg h1 h2
  have hc : cumulativeCosts scripts = cumulFrom 0 (sortedScripts scripts) := by
    rw [cumulativeCosts, costFoldl_eq_cumulFrom]
    rfl
  constructor
  · rw [hc]
    exact cumulFrom_sorted _ 0 hns
  · rw [hc]
    cases hl : sortedScripts scripts with
    | nil =>
      have hnil : scripts = [] := by
        have h0 := hperm
        rw [hl] at h0
        exact (h0.symm).eq_nil
      rw [hnil]
      simp [cumulFrom, totalScriptCost, totalVideoCost]
    | cons s0 rest =>
      rw [cumulFrom_getLast_cons s0 rest 0]
      have hsum : ((s0 :: rest).map scriptTotal).sum
          = (scripts.map scriptTotal).sum := by
        have hp2 : List.Perm (s0 :: rest) scripts := hl ▸ hperm
        exact (hp2.map scriptTotal).sum_eq
      show 0 + ((s0 :: rest).map scriptTotal).sum
        = totalScriptCost scripts + totalVideoCost scripts
      rw [hsum, totalScriptCost, totalVideoCost, foldl_add_map, foldl_add_map,
        map_scriptTotal_sum]
      ring

/-- Witness for C9 at two concrete scripts with costs 1, 2 and 3: the
last cumulative value equals the sum of the cost totals. -/
theorem costPage_cumulative_monotone_witness :
    (∀ s ∈ [(⟨"s1", "p", none, .UPLOADED, some 1, some 2, none, none, none, some 5, none⟩ : Script), ⟨"s2", "p", none, .UPLOADED, some 3, none, none, none, none, some 3, none⟩], 0 ≤ jsNum s.script_cost ∧ 0 ≤ jsNum s.video_cost) ∧
    (cumulativeCosts [⟨"s1", "p", none, .UPLOADED, some 1, some 2, none, none, none, some 5, none⟩, ⟨"s2", "p", none, .UPLOADED, some 3, none, none, none, none, some 3, none⟩]).getLast?.getD 0
      = totalScriptCost [⟨"s1", "p", none, .UPLOADED, some 1, some 2, none, none, none, some 5, none⟩, ⟨"s2", "p", none, .UPLOADED, some 3, none, none, none, none, some 3, none⟩]
        + totalVideoCost [⟨"s1", "p", none, .UPLOADED, some 1, some 2, none, none, none, some 5, none⟩, ⟨"s2", "p", none, .UPLOADED, some 3, none, none, none, none, some 3, none⟩] :=
  ⟨by decide, (costPage_cumulative_monotone _ (by decide)).2⟩
